import Mathlib

/-!
# Verification of the book-store order settlement subsystem

Shallow embedding of the Go sources of `nabilwafi/book_store_system`:
the order service (`internal/service/order_service.go`), the book and
order repositories, the transactional envelope
(`TransactionRepository.WithTransaction`), the payment helper
(`pkg/helpers/payment.go`) and the circuit-breaker configuration
(`pkg/helpers/circuit_breaker.go`).

Modelling conventions:
* Go `float64` money values are modelled as `ℚ` (the service only adds
  and multiplies them); the one place the code converts a price to an
  integer (`int64(item.Price)` in `CreatePayment`) is modelled as exact
  truncation toward zero.
* Go `int` quantities and stock counters are modelled as `ℤ`; the
  `int32`/`int64` conversions in `CreatePayment` are modelled with
  explicit two's-complement wrapping.
* The database is a value: books are an association list keyed by id,
  orders a list of rows (an order row carries its order-item rows, as
  every load in the source preloads them).
* GORM transactions are modelled by a `Tx` carrying the committed
  snapshot (`base`, what the repository's own `r.db` connection reads
  while the transaction is open) and the transaction's view (`cur`,
  what writes through the `tx` handle produce).  `WithTransaction`
  commits `cur` on success and discards it on error, exactly as the
  source's rollback-on-error / commit-on-success.
* Storage faults are injected through a `Faults` record so that the
  failure branches of the source are reachable.
-/

namespace BookStore

/-- `entity.Book` (`internal/entity/book.go`): the fields the order
subsystem reads. -/
structure Book where
  title : String
  price : ℚ
  stock : ℤ
  deriving DecidableEq, Repr

/-- `entity.User` (the fields the order service reads). -/
structure User where
  id : ℕ
  role : String
  deriving DecidableEq, Repr

/-- `entity.OrderItem` (`internal/entity/order.go`): one order line. -/
structure OrderItemRow where
  orderID : ℕ
  bookID : ℕ
  quantity : ℤ
  price : ℚ
  deriving DecidableEq, Repr

/-- `entity.Order` (`internal/entity/order.go`); the `OrderItems`
relation is stored inline since every load in the source preloads it. -/
structure OrderRow where
  id : ℕ
  userID : ℕ
  totalPrice : ℚ
  status : String
  paymentURL : String
  items : List OrderItemRow
  deriving DecidableEq, Repr

/-- The persistent store: the `books` and `orders` tables and the
order-id sequence. -/
structure DB where
  books : List (ℕ × Book)
  orders : List OrderRow
  nextOrderID : ℕ
  deriving DecidableEq, Repr

/-- One error constructor per distinct error site of the order
service / payment helper sources. -/
inductive OrderErr where
  /-- `ValidateUserToken` failed (invalid token or user lookup). -/
  | authErr
  /-- `ValidateAdminToken`: "access denied: admin role required". -/
  | adminRequired
  /-- "order must contain at least one item". -/
  | emptyOrder
  /-- "quantity must be greater than 0". -/
  | nonPositiveQty
  /-- "book with ID %d not found". -/
  | bookNotFound (bookID : ℕ)
  /-- "insufficient stock for book: %s" (advisory check, names the title). -/
  | insufficientStock (title : String)
  /-- in-transaction "insufficient stock for book ID %d". -/
  | txInsufficientStock (bookID : ℕ)
  /-- a storage-layer error propagated from a repository call. -/
  | repoErr (op : String)
  /-- "access denied" (order ownership). -/
  | accessDenied
  /-- "order is not in pending status". -/
  | notPending
  /-- "invalid status". -/
  | invalidStatus
  /-- "payment service temporarily unavailable, please try again later"
  (circuit breaker open). -/
  | gatewayUnavailable
  /-- "payment service is busy, please try again later"
  (circuit breaker half-open refusing extra probes). -/
  | gatewayBusy
  /-- an error returned by the remote payment gateway itself. -/
  | gatewayErr (msg : String)
  deriving DecidableEq, Repr

/-- Injected storage faults, so the failure branches of the source are
reachable.  `false` / constantly-`false` means the corresponding
repository call succeeds. -/
structure Faults where
  orderInsertFail : Bool
  getBookTxFail : ℕ → Bool
  updateStockFail : ℕ → Bool
  payURLFail : Bool
  statusTxFail : Bool

/-- A fault-free storage layer. -/
def noFaults : Faults :=
  ⟨false, fun _ => false, fun _ => false, false, false⟩

/-! ## Repository layer -/

/-- `bookRepositoryImpl.GetByID`: look a book up by id.  `none` models
gorm's record-not-found error. -/
def getBook (db : DB) (id : ℕ) : Option Book :=
  (db.books.find? (fun p => p.1 == id)).map Prod.snd

/-- `bookRepositoryImpl.CheckStock`: `book.Stock >= quantity` for the
stored stock of the book. -/
def checkStock (db : DB) (id : ℕ) (quantity : ℤ) : Option Bool :=
  (getBook db id).map (fun b => decide (quantity ≤ b.stock))

/-- Write a book's stock column (`UPDATE books SET stock = ? WHERE id = ?`). -/
def writeBookStock (db : DB) (id : ℕ) (stock : ℤ) : DB :=
  { db with
    books := db.books.map (fun p => if p.1 == id then (p.1, { p.2 with stock := stock }) else p) }

/-- Write a book's price column (used to state that later catalog price
changes do not touch persisted orders). -/
def writeBookPrice (db : DB) (id : ℕ) (price : ℚ) : DB :=
  { db with
    books := db.books.map (fun p => if p.1 == id then (p.1, { p.2 with price := price }) else p) }

/-- `orderRepositoryImpl.GetByID`: load an order (its item rows are
stored inline). -/
def getOrderRow (db : DB) (id : ℕ) : Option OrderRow :=
  db.orders.find? (fun o => o.id == id)

/-- Apply `f` to every order row whose id matches
(`UPDATE orders SET ... WHERE id = ?`). -/
def mapOrder (db : DB) (id : ℕ) (f : OrderRow → OrderRow) : DB :=
  { db with orders := db.orders.map (fun o => if o.id == id then f o else o) }

/-! ## Transactional envelope -/

/-- An open GORM transaction: `base` is the committed state, which the
repository's own `r.db` connection still reads while the transaction is
open (read committed); `cur` is the state as seen through the `tx`
handle, i.e. `base` plus the transaction's buffered writes. -/
structure Tx where
  base : DB
  cur : DB
  deriving DecidableEq, Repr

/-- `transactionRepositoryImpl.WithTransaction`: begin, run `fn`, roll
back (discard the transaction's writes) if it errors, commit its writes
otherwise. -/
def withTransaction (db : DB) (fn : Tx → Except OrderErr (α × Tx)) :
    Except OrderErr α × DB :=
  match fn ⟨db, db⟩ with
  | .error e => (.error e, db)
  | .ok (a, tx) => (.ok a, tx.cur)

/-- `orderRepositoryImpl.CreateOrderTx`: insert the order row through
the `tx` handle, assign it the next id, stamp the item rows with it and
insert them. -/
def createOrderTx (f : Faults) (tx : Tx) (order : OrderRow)
    (rows : List OrderItemRow) : Except OrderErr (ℕ × Tx) :=
  if f.orderInsertFail then .error (.repoErr "create order") else
  let oid := tx.cur.nextOrderID
  let stamped := rows.map (fun r => { r with orderID := oid })
  let inserted : OrderRow := { order with id := oid, items := stamped }
  .ok (oid, { tx with
    cur := { tx.cur with
      orders := inserted :: tx.cur.orders
      nextOrderID := oid + 1 } })

/-- `bookRepositoryImpl.UpdateStockTx`: write the stock column through
the `tx` handle. -/
def updateStockTx (tx : Tx) (id : ℕ) (stock : ℤ) : Tx :=
  { tx with cur := writeBookStock tx.cur id stock }

/-- `orderRepositoryImpl.UpdateStatusTx` through the `tx` handle. -/
def updateStatusTx (tx : Tx) (id : ℕ) (status : String) : Tx :=
  { tx with cur := mapOrder tx.cur id (fun o => { o with status := status }) }

/-- `orderRepositoryImpl.UpdatePaymentURLTx` through the `tx` handle. -/
def updatePaymentURLTx (tx : Tx) (id : ℕ) (url : String) : Tx :=
  { tx with cur := mapOrder tx.cur id (fun o => { o with paymentURL := url }) }

/-! ## CreateOrder -/

/-- One line of a `CreateOrder` request (`service.OrderItem`). -/
structure ReqItem where
  bookID : ℕ
  quantity : ℤ
  deriving DecidableEq, Repr

/-- The validation / pricing loop of `CreateOrder`
(`order_service.go` lines 72–107): per line, reject `quantity <= 0`,
resolve the book (missing → "not found" naming the id), run the
advisory `CheckStock` (insufficient → error naming the title), and
accumulate the priced line and the running total. -/
def buildItems (db : DB) : List ReqItem → Except OrderErr (List OrderItemRow × ℚ)
  | [] => .ok ([], 0)
  | it :: rest =>
    if it.quantity ≤ 0 then .error .nonPositiveQty
    else
      match getBook db it.bookID with
      | none => .error (.bookNotFound it.bookID)
      | some book =>
        if book.stock < it.quantity then .error (.insufficientStock book.title)
        else
          match buildItems db rest with
          | .error e => .error e
          | .ok (rows, total) =>
            .ok (⟨0, it.bookID, it.quantity, book.price⟩ :: rows,
                 book.price * (it.quantity : ℚ) + total)

/-- The stock-update loop inside `CreateOrder`'s transaction
(`order_service.go` lines 124–151).  Note the re-read
`s.bookRepo.GetByID` goes through the repository's base connection,
i.e. it reads `tx.base`, the committed snapshot — not the transaction's
own writes; only `UpdateStockTx` goes through the `tx` handle. -/
def updateStocksLoop (f : Faults) : List ReqItem → Tx → Except OrderErr Tx
  | [], tx => .ok tx
  | it :: rest, tx =>
    if f.getBookTxFail it.bookID then .error (.repoErr "get book") else
    match getBook tx.base it.bookID with
    | none => .error (.repoErr "get book")
    | some book =>
      if book.stock < it.quantity then .error (.txInsufficientStock it.bookID)
      else if f.updateStockFail it.bookID then .error (.repoErr "update stock")
      else updateStocksLoop f rest (updateStockTx tx it.bookID (book.stock - it.quantity))

instance {ε α : Type} [DecidableEq ε] [DecidableEq α] :
    DecidableEq (Except ε α) := fun a b =>
  match a, b with
  | .error e, .error e' =>
    if h : e = e' then .isTrue (by rw [h]) else .isFalse (by simp [h])
  | .error _, .ok _ => .isFalse (by simp)
  | .ok _, .error _ => .isFalse (by simp)
  | .ok a, .ok a' =>
    if h : a = a' then .isTrue (by rw [h]) else .isFalse (by simp [h])

/-- The outcome of a `CreateOrder` call: the returned value, the
resulting committed store, and whether the transactional unit of work
was begun. -/
structure CreateOrderOut where
  result : Except OrderErr OrderRow
  db : DB
  txBegan : Bool
  deriving DecidableEq, Repr

/-- `orderServiceImpl.CreateOrder` (`order_service.go` lines 53–170):
validate the token, reject empty requests, run the validation/pricing
loop, then inside one transaction insert the order and run the stock
re-check/decrement loop, and finally reload the persisted order. -/
def createOrder (auth : String → Option User) (f : Faults) (db : DB)
    (items : List ReqItem) (token : String) : CreateOrderOut :=
  match auth token with
  | none => ⟨.error .authErr, db, false⟩
  | some user =>
    if items.isEmpty then ⟨.error .emptyOrder, db, false⟩
    else
      match buildItems db items with
      | .error e => ⟨.error e, db, false⟩
      | .ok (rows, total) =>
        let order : OrderRow := ⟨0, user.id, total, "pending", "", []⟩
        match withTransaction db (fun tx => do
            let (oid, tx₁) ← createOrderTx f tx order rows
            let tx₂ ← updateStocksLoop f items tx₁
            pure (oid, tx₂)) with
        | (.error e, db') => ⟨.error e, db', true⟩
        | (.ok oid, db') =>
          match getOrderRow db' oid with
          | none => ⟨.error (.repoErr "load order"), db', true⟩
          | some o => ⟨.ok o, db', true⟩

/-! ## Payment helper (`pkg/helpers/payment.go`) -/

/-- Go's conversion of a `float64` to an integer type: truncation
toward zero (modelled exactly on `ℚ`; the conversion is only defined in
Go for in-range values). -/
def goTrunc (q : ℚ) : ℤ :=
  if 0 ≤ q then ⌊q⌋ else -⌊-q⌋

/-- Two's-complement wrapping of an `ℤ` into `int32`. -/
def int32wrap (n : ℤ) : ℤ :=
  (n + 2 ^ 31) % 2 ^ 32 - 2 ^ 31

/-- Two's-complement wrapping of an `ℤ` into `int64`. -/
def int64wrap (n : ℤ) : ℤ :=
  (n + 2 ^ 63) % 2 ^ 64 - 2 ^ 63

/-- The accumulation loop of `helpers.CreatePayment` (lines 27–40):
`itemPrice := int64(item.Price)`, `itemQty := int32(item.Quantity)`,
`itemTotal := itemPrice * int64(itemQty)`,
`calculatedTotal += itemTotal`, all in machine integers. -/
def grossLoop : List OrderItemRow → ℤ → ℤ
  | [], acc => acc
  | item :: rest, acc =>
    let itemPrice := goTrunc item.price
    let itemQty := int32wrap item.quantity
    let itemTotal := int64wrap (itemPrice * itemQty)
    grossLoop rest (int64wrap (acc + itemTotal))

/-- The `GrossAmt` that `helpers.CreatePayment` sends to the gateway:
the accumulated `calculatedTotal` over the order's item rows. -/
def createPaymentGross (items : List OrderItemRow) : ℤ :=
  grossLoop items 0

/-- The gateway request built by `helpers.CreatePayment` (lines 42–51):
only the order's id is taken from the order row; the amount is the
computed `calculatedTotal`. -/
structure PayReq where
  orderID : ℕ
  grossAmt : ℤ
  deriving DecidableEq, Repr

/-- `snap.Request` construction in `helpers.CreatePayment`. -/
def createPaymentRequest (order : OrderRow) (items : List OrderItemRow) : PayReq :=
  ⟨order.id, createPaymentGross items⟩

/-! ## Circuit breaker (`pkg/helpers/circuit_breaker.go`) -/

/-- `gobreaker.Counts`: the call counters of the current measurement
window. -/
structure CBCounts where
  requests : ℕ
  totalSuccesses : ℕ
  totalFailures : ℕ
  deriving DecidableEq, Repr

/-- The `ReadyToTrip` predicate of
`DefaultPaymentCircuitBreakerConfig`:
`failureRatio := TotalFailures / Requests;
 counts.Requests >= 5 && failureRatio >= 0.6`
(the division modelled exactly on `ℚ`; for the `uint32` counter ranges
the `float64` comparison agrees with the exact one). -/
def readyToTrip (c : CBCounts) : Bool :=
  decide (5 ≤ c.requests) &&
    decide ((6 : ℚ) / 10 ≤ (c.totalFailures : ℚ) / (c.requests : ℚ))

/-- The three states of the breaker's gate. -/
inductive CBState where
  | closed
  | openState
  | halfOpen
  deriving DecidableEq, Repr

/-- The breaker as seen by one call: its gate state and window
counters. -/
structure Breaker where
  state : CBState
  counts : CBCounts
  deriving DecidableEq, Repr

/-- The error values `gobreaker.Execute` can add to the callee's own
error. -/
inductive CBErr where
  /-- `gobreaker.ErrOpenState`. -/
  | errOpenState
  /-- `gobreaker.ErrTooManyRequests`. -/
  | errTooManyRequests
  /-- the wrapped function's own error, passed through. -/
  | fnErr (msg : String)
  deriving DecidableEq, Repr

/-- Modelled from the spec: `gobreaker`'s `Execute` (the `sony/gobreaker`
library is not part of this repository's sources).  While the gate is
open, the call is rejected with `ErrOpenState` without invoking the
wrapped function; otherwise the call passes through, the window's
request counter is incremented, the outcome is recorded, and — per the
repository's `ReadyToTrip` from `circuit_breaker.go` — a recorded
failure opens the gate exactly when `ReadyToTrip` holds of the updated
counters (counters restart on the state change).  The returned `Bool`
records whether the wrapped function was invoked. -/
def cbExecute (b : Breaker) (outcome : Except String α) :
    Except CBErr α × Breaker × Bool :=
  match b.state with
  | .openState => (.error .errOpenState, b, false)
  | _ =>
    let c := { b.counts with requests := b.counts.requests + 1 }
    match outcome with
    | .ok a =>
      (.ok a, { b with counts := { c with totalSuccesses := c.totalSuccesses + 1 } }, true)
    | .error msg =>
      let c' := { c with totalFailures := c.totalFailures + 1 }
      if readyToTrip c' then
        (.error (.fnErr msg), ⟨.openState, 0, 0, 0⟩, true)
      else
        (.error (.fnErr msg), { b with counts := c' }, true)

/-- `helpers.CreatePayment`'s use of the breaker (lines 54–76): run the
gateway call through `ExecuteWithCircuitBreaker`, then translate
`gobreaker.ErrOpenState` / `ErrTooManyRequests` into the dedicated
"temporarily unavailable" / "busy" errors and pass any other error
through unchanged. -/
def createPaymentCB (b : Breaker) (order : OrderRow) (items : List OrderItemRow)
    (gateway : PayReq → Except String String) :
    Except OrderErr String × Breaker × Bool :=
  let req := createPaymentRequest order items
  match cbExecute b (gateway req) with
  | (.error .errOpenState, b', invoked) => (.error .gatewayUnavailable, b', invoked)
  | (.error .errTooManyRequests, b', invoked) => (.error .gatewayBusy, b', invoked)
  | (.error (.fnErr msg), b', invoked) => (.error (.gatewayErr msg), b', invoked)
  | (.ok url, b', invoked) => (.ok url, b', invoked)

/-! ## ProcessPayment and UpdateOrderStatus -/

/-- `orderServiceImpl.ProcessPayment` (`order_service.go` lines
265–321): validate the token, load the order, require ownership, then
require status exactly "pending", call the payment helper, and persist
the payment URL and the "processing" status inside one transaction.
The gateway outcome is the `gateway` parameter applied to the request
the payment helper builds. -/
def processPayment (auth : String → Option User) (f : Faults) (b : Breaker)
    (gateway : PayReq → Except String String) (db : DB) (orderID : ℕ)
    (token : String) : Except OrderErr String × DB :=
  match auth token with
  | none => (.error .authErr, db)
  | some user =>
    match getOrderRow db orderID with
    | none => (.error (.repoErr "order not found"), db)
    | some order =>
      if order.userID ≠ user.id then (.error .accessDenied, db)
      else if order.status ≠ "pending" then (.error .notPending, db)
      else
        match createPaymentCB b order order.items gateway with
        | (.error e, _, _) => (.error e, db)
        | (.ok url, _, _) =>
          match withTransaction db (fun tx => do
              let tx₁ ← if f.payURLFail then .error (.repoErr "update payment url")
                        else pure (updatePaymentURLTx tx orderID url)
              let tx₂ ← if f.statusTxFail then .error (.repoErr "update status")
                        else pure (updateStatusTx tx₁ orderID "processing")
              pure ((), tx₂)) with
          | (.error e, db') => (.error e, db')
          | (.ok _, db') => (.ok url, db')

/-- The five recognized statuses of
`orderServiceImpl.UpdateOrderStatus`. -/
def validStatuses : List String :=
  ["pending", "processing", "shipped", "completed", "cancelled"]

/-- `orderServiceImpl.UpdateOrderStatus` (`order_service.go` lines
222–262): validate the token as an admin, check membership of the new
status in the fixed list, write the status column, reload. -/
def updateOrderStatus (auth : String → Option User) (db : DB) (id : ℕ)
    (status token : String) : Except OrderErr OrderRow × DB :=
  match auth token with
  | none => (.error .authErr, db)
  | some user =>
    if user.role ≠ "admin" then (.error .adminRequired, db)
    else if status ∉ validStatuses then (.error .invalidStatus, db)
    else
      let db' := mapOrder db id (fun o => { o with status := status })
      match getOrderRow db' id with
      | none => (.error (.repoErr "load order"), db')
      | some o => (.ok o, db')

/-! ## Two concurrent `CreateOrder` calls on one book

A small-step machine for the transactional section of two concurrent
`CreateOrder` calls (each a single line for the same book), faithful to
`order_service.go` lines 116–154 plus `WithTransaction`:

* `s.stockMutex` is an exclusive section covering only the re-read,
  the check and the `UpdateStockTx` write of one line — it is released
  before the transaction commits;
* the re-read (`s.bookRepo.GetByID`) goes through the repository's base
  connection and therefore sees only *committed* data (read committed),
  never the other transaction's uncommitted write;
* the `UPDATE` takes the database row lock, held until commit or
  rollback, so a second `UPDATE` of the same row must wait for it;
* commit publishes the buffered write; rollback discards it. -/

/-- One `CreateOrder` call's view in the two-call machine: its program
counter, requested quantity, the stock value it re-read, and its
transaction's buffered stock write.  `pc` meanings: 0 begin, 1 lock
mutex, 2 re-read stock, 3 check, 4 `UPDATE` stock, 5 unlock mutex,
6 commit, 7 done (success), 8 done (failed, rolled back). -/
structure CallThread where
  pc : ℕ
  qty : ℤ
  readStock : ℤ
  buffered : Option ℤ
  deriving DecidableEq, Repr

/-- The shared state of the two-call machine: the committed stock of
the one book row, the holder of `s.stockMutex`, the holder of the
database row lock on the book row, and the two calls. -/
structure TwoCalls where
  committed : ℤ
  mutexHeld : Option Bool
  rowLock : Option Bool
  threadF : CallThread
  threadT : CallThread
  deriving DecidableEq, Repr

/-- Project the thread named by `who`. -/
def TwoCalls.thread (s : TwoCalls) (who : Bool) : CallThread :=
  if who then s.threadT else s.threadF

/-- Replace the thread named by `who`. -/
def TwoCalls.setThread (s : TwoCalls) (who : Bool) (t : CallThread) : TwoCalls :=
  if who then { s with threadT := t } else { s with threadF := t }

/-- One enabled step of thread `who`; `none` when the thread is blocked
(on the mutex or the row lock) or already done. -/
def twoCallsStep (s : TwoCalls) (who : Bool) : Option TwoCalls :=
  let t := s.thread who
  match t.pc with
  | 0 => some (s.setThread who { t with pc := 1 })
  | 1 =>
    match s.mutexHeld with
    | none => some { s.setThread who { t with pc := 2 } with mutexHeld := some who }
    | some _ => none
  | 2 => some (s.setThread who { t with pc := 3, readStock := s.committed })
  | 3 =>
    if t.readStock < t.qty then
      some { s.setThread who { t with pc := 8, buffered := none } with
        mutexHeld := none
        rowLock := if s.rowLock = some who then none else s.rowLock }
    else some (s.setThread who { t with pc := 4 })
  | 4 =>
    match s.rowLock with
    | none =>
      some { s.setThread who { t with pc := 5, buffered := some (t.readStock - t.qty) } with
        rowLock := some who }
    | some owner =>
      if owner = who then
        some (s.setThread who { t with pc := 5, buffered := some (t.readStock - t.qty) })
      else none
  | 5 => some { s.setThread who { t with pc := 6 } with mutexHeld := none }
  | 6 =>
    some { s.setThread who { t with pc := 7 } with
      committed := t.buffered.getD s.committed
      rowLock := if s.rowLock = some who then none else s.rowLock }
  | _ => none

/-- Run a schedule (a list naming which call moves next); fails if a
scheduled call is blocked or done. -/
def twoCallsRun : TwoCalls → List Bool → Option TwoCalls
  | s, [] => some s
  | s, who :: rest =>
    match twoCallsStep s who with
    | none => none
    | some s' => twoCallsRun s' rest

/-- Both calls request `qty` 1 of a book whose committed stock is `stock`. -/
def twoCallsInit (stock : ℤ) (qtyF qtyT : ℤ) : TwoCalls :=
  ⟨stock, none, none, ⟨0, qtyF, 0, none⟩, ⟨0, qtyT, 0, none⟩⟩

/-- The interleaving that oversells: the first call runs up to and
including its mutex release (but not its commit), the second call then
re-reads the still-unchanged committed stock and passes its check, the
first call commits, and the second call writes and commits. -/
def overSellSchedule : List Bool :=
  [false, false, false, false, false, false,
   true, true, true, true,
   false,
   true, true, true]

/-! ## Repository lemmas -/

theorem getOrderRow_writeBookPrice (db : DB) (bid : ℕ) (p : ℚ) (i : ℕ) :
    getOrderRow (writeBookPrice db bid p) i = getOrderRow db i := rfl

theorem getOrderRow_writeBookStock (db : DB) (bid : ℕ) (v : ℤ) (i : ℕ) :
    getOrderRow (writeBookStock db bid v) i = getOrderRow db i := rfl

/-- `find?` on the list underlying `writeBookStock`, at the written key. -/
theorem find?_stock_map_self (l : List (ℕ × Book)) (id : ℕ) (v : ℤ) (bk : Book)
    (h : (l.find? (fun p => p.1 == id)).map Prod.snd = some bk) :
    ((l.map (fun p => if p.1 == id then (p.1, { p.2 with stock := v }) else p)).find?
        (fun p => p.1 == id)).map Prod.snd = some { bk with stock := v } := by
  induction l with
  | nil => exact Option.noConfusion h
  | cons p rest ih =>
    by_cases h1 : p.1 = id
    · rw [List.find?_cons_of_pos _ (by simp [h1])] at h
      simp only [Option.map_some', Option.some.injEq] at h
      rw [List.map_cons, if_pos (by simp [h1]), List.find?_cons_of_pos _ (by simp [h1])]
      simp [h]
    · rw [List.find?_cons_of_neg _ (by simp [h1])] at h
      rw [List.map_cons, if_neg (by simp [h1]), List.find?_cons_of_neg _ (by simp [h1])]
      exact ih h

theorem getBook_writeBookStock_self (db : DB) (id : ℕ) (v : ℤ) (bk : Book)
    (h : getBook db id = some bk) :
    getBook (writeBookStock db id v) id = some { bk with stock := v } := by
  unfold getBook at h ⊢
  exact find?_stock_map_self db.books id v bk h

/-- Every stock in a `writeBookStock` image is nonnegative when the
existing stocks and the written value are. -/
theorem writeBookStock_nonneg (db : DB) (id : ℕ) (v : ℤ) (hv : 0 ≤ v)
    (h : ∀ p ∈ db.books, 0 ≤ p.2.stock) :
    ∀ p ∈ (writeBookStock db id v).books, 0 ≤ p.2.stock := by
  intro p hp
  unfold writeBookStock at hp
  simp only [List.mem_map] at hp
  obtain ⟨q, hq, rfl⟩ := hp
  by_cases h1 : q.1 = id <;> simp [h1, hv, h q hq]

/-- `find?` over an id-preserving per-row update, at the updated id. -/
theorem find?_order_map (l : List OrderRow) (i : ℕ) (f : OrderRow → OrderRow)
    (hf : ∀ o, (f o).id = o.id) :
    (l.map (fun o => if o.id == i then f o else o)).find? (fun o => o.id == i) =
      (l.find? (fun o => o.id == i)).map f := by
  induction l with
  | nil => simp
  | cons o rest ih =>
    by_cases h : o.id = i
    · rw [List.map_cons, if_pos (by simp [h]), List.find?_cons_of_pos _ (by simp [hf, h]),
          List.find?_cons_of_pos _ (by simp [h])]
      simp
    · rw [List.map_cons, if_neg (by simp [h]), List.find?_cons_of_neg _ (by simp [h]),
          List.find?_cons_of_neg _ (by simp [h])]
      exact ih

/-- Updating matching order rows with an id-preserving function
commutes with loading an order by id. -/
theorem getOrderRow_mapOrder (db : DB) (i : ℕ) (f : OrderRow → OrderRow)
    (hf : ∀ o, (f o).id = o.id) :
    getOrderRow (mapOrder db i f) i = (getOrderRow db i).map f := by
  unfold getOrderRow mapOrder
  exact find?_order_map db.orders i f hf

/-! ## Validation-loop lemmas -/

/-- What an accepted validation/pricing loop guarantees: the running
total is the sum of the priced lines, every priced line copies the
catalog price of an existing book, and every requested line has a
positive quantity, an existing book, and passed the advisory stock
check. -/
theorem buildItems_ok_spec (db : DB) (items : List ReqItem) :
    ∀ rows total, buildItems db items = .ok (rows, total) →
      total = (rows.map (fun r => r.price * (r.quantity : ℚ))).sum ∧
      (∀ r ∈ rows, r.orderID = 0 ∧
        ∃ b, getBook db r.bookID = some b ∧ r.price = b.price) ∧
      (∀ it ∈ items, 0 < it.quantity ∧
        ∃ b, getBook db it.bookID = some b ∧ it.quantity ≤ b.stock) := by
  induction items with
  | nil =>
    intro rows total h
    simp only [buildItems, Except.ok.injEq, Prod.mk.injEq] at h
    obtain ⟨rfl, rfl⟩ := h
    simp
  | cons it rest ih =>
    intro rows total h
    simp only [buildItems] at h
    split at h
    · exact absurd h (by simp)
    · rename_i hqty
      split at h
      · exact absurd h (by simp)
      · rename_i book hb
        split at h
        · exact absurd h (by simp)
        · rename_i hstock
          split at h
          · exact absurd h (by simp)
          · rename_i rows' total' hp
            simp only [Except.ok.injEq, Prod.mk.injEq] at h
            obtain ⟨h1, h2⟩ := h
            subst h1
            subst h2
            obtain ⟨ht, hrows, hlines⟩ := ih rows' total' hp
            refine ⟨?_, ?_, ?_⟩
            · simp [ht]
            · intro r hr'
              rcases List.mem_cons.mp hr' with rfl | hmem
              · exact ⟨rfl, book, hb, rfl⟩
              · exact hrows r hmem
            · intro x hx
              rcases List.mem_cons.mp hx with rfl | hmem
              · exact ⟨lt_of_not_le (fun hle => hqty hle), book, hb,
                  le_of_not_lt hstock⟩
              · exact hlines x hmem

/-- What a rejected validation/pricing loop guarantees: the error is
one of the three per-line validation errors, and each error kind is
produced only by its eliciting condition, naming the offending item. -/
theorem buildItems_error_spec (db : DB) (items : List ReqItem) :
    ∀ e, buildItems db items = .error e →
      (e = .nonPositiveQty ∨ (∃ bid, e = .bookNotFound bid) ∨
        (∃ t, e = .insufficientStock t)) ∧
      (e = .nonPositiveQty → ∃ it ∈ items, it.quantity ≤ 0) ∧
      (∀ bid, e = .bookNotFound bid →
        (∃ it ∈ items, it.bookID = bid) ∧ getBook db bid = none) ∧
      (∀ t, e = .insufficientStock t →
        ∃ it ∈ items, ∃ b, getBook db it.bookID = some b ∧
          b.title = t ∧ b.stock < it.quantity) := by
  induction items with
  | nil => intro e h; exact absurd h (by simp [buildItems])
  | cons it rest ih =>
    intro e h
    simp only [buildItems] at h
    split at h
    · rename_i hqty
      simp only [Except.error.injEq] at h
      subst h
      refine ⟨Or.inl rfl, fun _ => ⟨it, List.mem_cons_self it rest, hqty⟩,
        fun bid hb => absurd hb (by simp), fun t ht => absurd ht (by simp)⟩
    · rename_i hqty
      split at h
      · rename_i hb
        simp only [Except.error.injEq] at h
        subst h
        exact ⟨Or.inr (Or.inl ⟨it.bookID, rfl⟩),
          fun he => absurd he (by simp),
          fun bid hbid => by
            obtain ⟨rfl⟩ := OrderErr.bookNotFound.inj hbid
            exact ⟨⟨it, List.mem_cons_self it rest, rfl⟩, hb⟩,
          fun t ht => absurd ht (by simp)⟩
      · rename_i book hb
        split at h
        · rename_i hstock
          simp only [Except.error.injEq] at h
          subst h
          exact ⟨Or.inr (Or.inr ⟨book.title, rfl⟩),
            fun he => absurd he (by simp),
            fun bid hbid => absurd hbid (by simp),
            fun t ht => by
              obtain ⟨rfl⟩ := OrderErr.insufficientStock.inj ht
              exact ⟨it, List.mem_cons_self it rest, book, hb, rfl, hstock⟩⟩
        · split at h
          · rename_i e' hr
            simp only [Except.error.injEq] at h
            subst h
            obtain ⟨hkind, hq, hnf, his⟩ := ih e' hr
            refine ⟨hkind, ?_, ?_, ?_⟩
            · intro he
              obtain ⟨x, hx, hxq⟩ := hq he
              exact ⟨x, List.mem_cons_of_mem it hx, hxq⟩
            · intro bid hbid
              obtain ⟨⟨x, hx, hxb⟩, hnone⟩ := hnf bid hbid
              exact ⟨⟨x, List.mem_cons_of_mem it hx, hxb⟩, hnone⟩
            · intro t ht
              obtain ⟨x, hx, b, hbx, hbt, hbs⟩ := his t ht
              exact ⟨x, List.mem_cons_of_mem it hx, b, hbx, hbt, hbs⟩
          · exact absurd h (by simp)

/-! ## Stock-update-loop lemmas -/

/-- The in-transaction stock loop only writes book stocks: the base
snapshot, the buffered order rows, and the id sequence are untouched. -/
theorem updateStocksLoop_preserves (f : Faults) (items : List ReqItem) :
    ∀ tx tx', updateStocksLoop f items tx = .ok tx' →
      tx'.base = tx.base ∧ tx'.cur.orders = tx.cur.orders ∧
      tx'.cur.nextOrderID = tx.cur.nextOrderID := by
  induction items with
  | nil =>
    intro tx tx' h
    simp only [updateStocksLoop, Except.ok.injEq] at h
    subst h
    exact ⟨rfl, rfl, rfl⟩
  | cons it rest ih =>
    intro tx tx' h
    simp only [updateStocksLoop] at h
    split at h
    · exact absurd h (by simp)
    · split at h
      · exact absurd h (by simp)
      · rename_i book hb
        split at h
        · exact absurd h (by simp)
        · split at h
          · exact absurd h (by simp)
          · exact ih (updateStockTx tx it.bookID (book.stock - it.quantity)) tx' h

/-- Every stock the in-transaction loop writes is the re-read stock
minus the quantity, and the loop only proceeds when that is
nonnegative: nonnegative stocks are preserved. -/
theorem updateStocksLoop_nonneg (f : Faults) (items : List ReqItem) :
    ∀ tx tx', updateStocksLoop f items tx = .ok tx' →
      (∀ p ∈ tx.cur.books, 0 ≤ p.2.stock) →
      ∀ p ∈ tx'.cur.books, 0 ≤ p.2.stock := by
  induction items with
  | nil =>
    intro tx tx' h hn
    simp only [updateStocksLoop, Except.ok.injEq] at h
    subst h
    exact hn
  | cons it rest ih =>
    intro tx tx' h hn
    simp only [updateStocksLoop] at h
    split at h
    · exact absurd h (by simp)
    · split at h
      · exact absurd h (by simp)
      · rename_i book hb
        split at h
        · exact absurd h (by simp)
        · rename_i hstock
          split at h
          · exact absurd h (by simp)
          · exact ih (updateStockTx tx it.bookID (book.stock - it.quantity)) tx' h
              (writeBookStock_nonneg _ _ _ (sub_nonneg.mpr (not_lt.mp hstock)) hn)

/-- The in-transaction re-check is authoritative: when the stock read
through the base connection is below the requested quantity, the loop
fails with the in-transaction insufficient-stock error naming the book. -/
theorem updateStocksLoop_insufficient (f : Faults) (it : ReqItem)
    (rest : List ReqItem) (tx : Tx) (bk : Book)
    (hf : f.getBookTxFail it.bookID = false)
    (hb : getBook tx.base it.bookID = some bk)
    (hlt : bk.stock < it.quantity) :
    updateStocksLoop f (it :: rest) tx = .error (.txInsufficientStock it.bookID) := by
  simp [updateStocksLoop, hf, hb, hlt]

/-- For a single line, the stock written through the transaction handle
is exactly the re-read stock minus the requested quantity. -/
theorem updateStocksLoop_single (f : Faults) (it : ReqItem) (tx : Tx) (bk : Book)
    (hf : f.getBookTxFail it.bookID = false)
    (hb : getBook tx.base it.bookID = some bk)
    (hge : ¬ bk.stock < it.quantity)
    (hf2 : f.updateStockFail it.bookID = false) :
    updateStocksLoop f [it] tx =
      .ok (updateStockTx tx it.bookID (bk.stock - it.quantity)) := by
  simp [updateStocksLoop, hf, hb, hge, hf2]

/-! ## The shape of a `CreateOrder` run -/

/-- Master case split for `createOrder`: either it fails and the
committed store is unchanged, or it succeeds and the result is the
order row inserted by the transaction, whose committed store is the
transaction's view after the stock loop. -/
theorem createOrder_main (auth : String → Option User) (f : Faults) (db : DB)
    (items : List ReqItem) (token : String) :
    (∃ e, (createOrder auth f db items token).result = .error e ∧
          (createOrder auth f db items token).db = db) ∨
    (∃ user rows total tx₂,
      auth token = some user ∧
      buildItems db items = .ok (rows, total) ∧
      updateStocksLoop f items
        ⟨db, { db with
            orders := ({ id := db.nextOrderID, userID := user.id, totalPrice := total,
                         status := "pending", paymentURL := "",
                         items := rows.map (fun r => { r with orderID := db.nextOrderID }) } : OrderRow)
              :: db.orders,
            nextOrderID := db.nextOrderID + 1 }⟩ = .ok tx₂ ∧
      getOrderRow tx₂.cur db.nextOrderID =
        some { id := db.nextOrderID, userID := user.id, totalPrice := total,
               status := "pending", paymentURL := "",
               items := rows.map (fun r => { r with orderID := db.nextOrderID }) } ∧
      createOrder auth f db items token =
        ⟨.ok { id := db.nextOrderID, userID := user.id, totalPrice := total,
               status := "pending", paymentURL := "",
               items := rows.map (fun r => { r with orderID := db.nextOrderID }) },
          tx₂.cur, true⟩) := by
  cases ha : auth token with
  | none => exact Or.inl ⟨.authErr, by simp [createOrder, ha], by simp [createOrder, ha]⟩
  | some user =>
    by_cases hempty : items.isEmpty
    · exact Or.inl ⟨.emptyOrder, by simp [createOrder, ha, hempty],
        by simp [createOrder, ha, hempty]⟩
    · cases hb : buildItems db items with
      | error e =>
        exact Or.inl ⟨e, by simp [createOrder, ha, hempty, hb],
          by simp [createOrder, ha, hempty, hb]⟩
      | ok p =>
        obtain ⟨rows, total⟩ := p
        by_cases hf : f.orderInsertFail
        · refine Or.inl ⟨.repoErr "create order", ?_, ?_⟩ <;>
            simp [createOrder, ha, hempty, hb, withTransaction, createOrderTx, hf,
              Bind.bind, Except.bind]
        · cases hloop : updateStocksLoop f items
            ⟨db, { db with
              orders := ({ id := db.nextOrderID, userID := user.id, totalPrice := total,
                           status := "pending", paymentURL := "",
                           items := rows.map (fun r => { r with orderID := db.nextOrderID }) } : OrderRow)
                :: db.orders,
              nextOrderID := db.nextOrderID + 1 }⟩ with
          | error e =>
            refine Or.inl ⟨e, ?_, ?_⟩ <;>
              simp [createOrder, ha, hempty, hb, withTransaction, createOrderTx, hf,
                Bind.bind, Except.bind, Functor.map, Except.map, hloop]
          | ok tx₂ =>
            have horders := (updateStocksLoop_preserves f items _ _ hloop).2.1
            have hfind : getOrderRow tx₂.cur db.nextOrderID =
                some { id := db.nextOrderID, userID := user.id, totalPrice := total,
                       status := "pending", paymentURL := "",
                       items := rows.map (fun r => { r with orderID := db.nextOrderID }) } := by
              unfold getOrderRow
              rw [horders]
              exact List.find?_cons_of_pos _ (by simp)
            refine Or.inr ⟨user, rows, total, tx₂, rfl, rfl, hloop, hfind, ?_⟩
            simp [createOrder, ha, hempty, hb, withTransaction, createOrderTx, hf,
              Bind.bind, Except.bind, Functor.map, Except.map, pure, Except.pure,
              hloop, hfind]

/-- Any failing `CreateOrder` leaves the committed store unchanged. -/
theorem createOrder_error_db (auth : String → Option User) (f : Faults) (db : DB)
    (items : List ReqItem) (token : String) (e : OrderErr)
    (h : (createOrder auth f db items token).result = .error e) :
    (createOrder auth f db items token).db = db := by
  rcases createOrder_main auth f db items token with ⟨e', _, hdb⟩ |
    ⟨u, rows, total, tx₂, _, _, _, _, hout⟩
  · exact hdb
  · rw [hout] at h
    exact absurd h (by simp)

/-! ## Concrete fixtures used by the witnesses -/

/-- A token map with one ordinary user and one admin. -/
def wAuth : String → Option User := fun t =>
  if t = "tok" then some ⟨7, "user"⟩
  else if t = "adm" then some ⟨9, "admin"⟩
  else none

/-- One book, id 1, price 5, stock 10. -/
def wDB : DB := ⟨[(1, ⟨"B", 5, 10⟩)], [], 1⟩

/-- The order that `createOrder` produces on `wDB` for two copies of
book 1. -/
def wOrder : OrderRow := ⟨1, 7, 10, "pending", "", [⟨1, 1, 2, 5⟩]⟩

/-- Concrete evaluation of the validation loop on the fixture. -/
theorem wBuild_eval : buildItems wDB [⟨1, 2⟩] = .ok ([⟨0, 1, 2, 5⟩], 10) := by
  norm_num [buildItems, wDB, getBook, List.find?]

/-- Concrete evaluation of a successful `CreateOrder` on the fixture. -/
theorem wRun_eval : createOrder wAuth noFaults wDB [⟨1, 2⟩] "tok" =
    ⟨.ok wOrder, ⟨[(1, ⟨"B", 5, 8⟩)], [wOrder], 2⟩, true⟩ := by
  norm_num [createOrder, wAuth, wDB, wOrder, buildItems, getBook, noFaults,
    withTransaction, createOrderTx, updateStocksLoop, updateStockTx, writeBookStock,
    getOrderRow, Bind.bind, Except.bind, pure, Except.pure, Functor.map, Except.map,
    List.find?]

/-! ## The claims -/

/-- C1: for every accepted `CreateOrder`, the returned order's total
price equals the sum over its lines of quantity times the captured unit
price; each line's stored price equals the catalog price of that book
at order-creation time; the returned order is the persisted one; and a
later catalog price change leaves the persisted order, its total and
its line prices untouched. -/
theorem claim_C1 (auth : String → Option User) (f : Faults) (db : DB)
    (items : List ReqItem) (token : String) (o : OrderRow)
    (h : (createOrder auth f db items token).result = .ok o) :
    o.totalPrice = (o.items.map (fun r => r.price * (r.quantity : ℚ))).sum ∧
    (∀ r ∈ o.items, ∃ b, getBook db r.bookID = some b ∧ r.price = b.price) ∧
    getOrderRow (createOrder auth f db items token).db o.id = some o ∧
    (∀ bid p,
      getOrderRow (writeBookPrice (createOrder auth f db items token).db bid p) o.id =
        some o) := by
  rcases createOrder_main auth f db items token with ⟨e, herr, _⟩ |
    ⟨u, rows, total, tx₂, ha, hb, hloop, hfind, hout⟩
  · rw [herr] at h
    exact absurd h (by simp)
  · rw [hout] at h
    simp only [Except.ok.injEq] at h
    subst h
    obtain ⟨ht, hrows, _⟩ := buildItems_ok_spec db items rows total hb
    refine ⟨?_, ?_, ?_, ?_⟩
    · show total = _
      rw [ht, List.map_map]
      rfl
    · intro r hr
      simp only [List.mem_map] at hr
      obtain ⟨r', hr', rfl⟩ := hr
      obtain ⟨_, b, hgb, hpr⟩ := hrows r' hr'
      exact ⟨b, hgb, hpr⟩
    · rw [hout]
      exact hfind
    · intro bid p
      rw [hout, getOrderRow_writeBookPrice]
      exact hfind

/-- C1 witness: a concrete accepted order over `wDB`. -/
theorem claim_C1_witness :
    (createOrder wAuth noFaults wDB [⟨1, 2⟩] "tok").result = .ok wOrder ∧
    wOrder.totalPrice = (wOrder.items.map (fun r => r.price * (r.quantity : ℚ))).sum ∧
    getOrderRow (createOrder wAuth noFaults wDB [⟨1, 2⟩] "tok").db wOrder.id =
      some wOrder :=
  ⟨by rw [wRun_eval],
   (claim_C1 wAuth noFaults wDB [⟨1, 2⟩] "tok" wOrder (by rw [wRun_eval])).1,
   (claim_C1 wAuth noFaults wDB [⟨1, 2⟩] "tok" wOrder (by rw [wRun_eval])).2.2.1⟩

/-- C2: with a resolvable token, an empty item list is rejected with
the empty-order error; any validation-loop error aborts the call with
the committed store untouched and the transactional unit never begun;
each validation error kind is produced exactly by its eliciting
condition, naming the offending item; and any request containing a
nonpositive-quantity line, a line naming a missing book, or a line
failing the advisory stock check is so rejected. -/
theorem claim_C2 (auth : String → Option User) (f : Faults) (db : DB)
    (items : List ReqItem) (token : String) (user : User)
    (hauth : auth token = some user) :
    (items = [] → createOrder auth f db items token = ⟨.error .emptyOrder, db, false⟩) ∧
    (∀ e, buildItems db items = .error e →
      createOrder auth f db items token = ⟨.error e, db, false⟩) ∧
    (∀ e, buildItems db items = .error e →
      (e = .nonPositiveQty ∨ (∃ bid, e = .bookNotFound bid) ∨
        (∃ t, e = .insufficientStock t)) ∧
      (e = .nonPositiveQty → ∃ it ∈ items, it.quantity ≤ 0) ∧
      (∀ bid, e = .bookNotFound bid →
        (∃ it ∈ items, it.bookID = bid) ∧ getBook db bid = none) ∧
      (∀ t, e = .insufficientStock t →
        ∃ it ∈ items, ∃ b, getBook db it.bookID = some b ∧
          b.title = t ∧ b.stock < it.quantity)) ∧
    ((∃ it ∈ items, it.quantity ≤ 0 ∨ getBook db it.bookID = none ∨
        (∃ b, getBook db it.bookID = some b ∧ b.stock < it.quantity)) →
      ∃ e, createOrder auth f db items token = ⟨.error e, db, false⟩) := by
  have herr : ∀ e, buildItems db items = .error e →
      createOrder auth f db items token = ⟨.error e, db, false⟩ := by
    intro e he
    cases items with
    | nil => exact absurd he (by simp [buildItems])
    | cons it rest => simp [createOrder, hauth, he]
  refine ⟨?_, herr, fun e he => buildItems_error_spec db items e he, ?_⟩
  · intro h
    subst h
    simp [createOrder, hauth]
  · intro hbad
    cases hb : buildItems db items with
    | error e => exact ⟨e, herr e hb⟩
    | ok p =>
      obtain ⟨rows, total⟩ := p
      obtain ⟨it, hit, hcase⟩ := hbad
      obtain ⟨hq, b, hgb, hbs⟩ := (buildItems_ok_spec db items rows total hb).2.2 it hit
      rcases hcase with hle | hnone | ⟨b', hgb', hlt⟩
      · exact absurd hle (not_le.mpr hq)
      · rw [hgb] at hnone
        exact absurd hnone (by simp)
      · rw [hgb] at hgb'
        obtain ⟨rfl⟩ := Option.some.inj hgb'
        exact absurd hbs (not_le.mpr hlt)

/-- C2 witness: a quantity-0 line is rejected as invalid, before any
transaction, leaving the store untouched. -/
theorem claim_C2_witness :
    createOrder wAuth noFaults wDB [⟨1, 0⟩] "tok" =
      ⟨.error .nonPositiveQty, wDB, false⟩ :=
  (claim_C2 wAuth noFaults wDB [⟨1, 0⟩] "tok" ⟨7, "user"⟩ (by decide)).2.1
    .nonPositiveQty (by decide)

/-- C3: whenever `CreateOrder` fails — in particular at the order-row
insert or at any step of the in-transaction stock loop — the whole unit
is rolled back, leaving the committed store exactly as before, and the
error is returned; an injected order-insert failure after the
transactional unit began produces exactly that outcome. -/
theorem claim_C3 (auth : String → Option User) (f : Faults) (db : DB)
    (items : List ReqItem) (token : String) :
    (∀ e, (createOrder auth f db items token).result = .error e →
      (createOrder auth f db items token).db = db) ∧
    (∀ user rows total, auth token = some user → items.isEmpty = false →
      buildItems db items = .ok (rows, total) → f.orderInsertFail = true →
      createOrder auth f db items token = ⟨.error (.repoErr "create order"), db, true⟩) ∧
    (∀ user rows total e, auth token = some user → items.isEmpty = false →
      buildItems db items = .ok (rows, total) → f.orderInsertFail = false →
      updateStocksLoop f items
        ⟨db, { db with
          orders := ({ id := db.nextOrderID, userID := user.id, totalPrice := total,
                       status := "pending", paymentURL := "",
                       items := rows.map (fun r => { r with orderID := db.nextOrderID }) } : OrderRow)
            :: db.orders,
          nextOrderID := db.nextOrderID + 1 }⟩ = .error e →
      createOrder auth f db items token = ⟨.error e, db, true⟩) := by
  refine ⟨createOrder_error_db auth f db items token, ?_, ?_⟩
  · intro user rows total ha hempty hb hf
    simp [createOrder, ha, hempty, hb, withTransaction, createOrderTx, hf,
      Bind.bind, Except.bind]
  · intro user rows total e ha hempty hb hf hloop
    simp [createOrder, ha, hempty, hb, withTransaction, createOrderTx, hf,
      Bind.bind, Except.bind, Functor.map, Except.map, hloop]

/-- C3 witness: an injected order-insert failure rolls the whole
attempt back: the store is unchanged and the error is returned. -/
theorem claim_C3_witness :
    createOrder wAuth ⟨true, fun _ => false, fun _ => false, false, false⟩ wDB
        [⟨1, 2⟩] "tok" =
      ⟨.error (.repoErr "create order"), wDB, true⟩ :=
  (claim_C3 wAuth ⟨true, fun _ => false, fun _ => false, false, false⟩ wDB
      [⟨1, 2⟩] "tok").2.1 ⟨7, "user"⟩ [⟨0, 1, 2, 5⟩] 10 (by decide) (by decide)
    wBuild_eval rfl

/-- C4: inside the transactional unit each line's stock is re-read and
re-checked before the decrement — if the re-read stock is below the
requested quantity the loop aborts with the in-transaction
insufficient-stock error, and any such failure rolls the whole unit
back (store unchanged); otherwise the stock written is exactly the
re-read stock minus the quantity; consequently order creation never
drives any stock counter negative. -/
theorem claim_C4 :
    (∀ (f : Faults) (it : ReqItem) (rest : List ReqItem) (tx : Tx) (bk : Book),
      f.getBookTxFail it.bookID = false →
      getBook tx.base it.bookID = some bk → bk.stock < it.quantity →
      updateStocksLoop f (it :: rest) tx = .error (.txInsufficientStock it.bookID)) ∧
    (∀ (auth : String → Option User) (f : Faults) (db : DB)
        (items : List ReqItem) (token : String) (e : OrderErr),
      (createOrder auth f db items token).result = .error e →
      (createOrder auth f db items token).db = db) ∧
    (∀ (f : Faults) (it : ReqItem) (tx : Tx) (bk : Book),
      f.getBookTxFail it.bookID = false →
      getBook tx.base it.bookID = some bk → ¬ bk.stock < it.quantity →
      f.updateStockFail it.bookID = false →
      updateStocksLoop f [it] tx =
        .ok (updateStockTx tx it.bookID (bk.stock - it.quantity))) ∧
    (∀ (auth : String → Option User) (f : Faults) (db : DB)
        (items : List ReqItem) (token : String),
      (∀ p ∈ db.books, 0 ≤ p.2.stock) →
      ∀ p ∈ (createOrder auth f db items token).db.books, 0 ≤ p.2.stock) := by
  refine ⟨updateStocksLoop_insufficient, createOrder_error_db, updateStocksLoop_single, ?_⟩
  intro auth f db items token hn
  rcases createOrder_main auth f db items token with ⟨e, _, hdb⟩ |
    ⟨u, rows, total, tx₂, ha, hb, hloop, hfind, hout⟩
  · rw [hdb]
    exact hn
  · rw [hout]
    exact updateStocksLoop_nonneg f items _ _ hloop hn

/-- C4 witness: with stock 10 and a requested quantity of 20, the
in-transaction re-check aborts the loop; and a concrete accepted run
keeps every stock nonnegative. -/
theorem claim_C4_witness :
    updateStocksLoop noFaults [⟨1, 20⟩] ⟨wDB, wDB⟩ =
      .error (.txInsufficientStock 1) ∧
    ∀ p ∈ (createOrder wAuth noFaults wDB [⟨1, 2⟩] "tok").db.books, 0 ≤ p.2.stock :=
  ⟨claim_C4.1 noFaults ⟨1, 20⟩ [] ⟨wDB, wDB⟩ ⟨"B", 5, 10⟩ rfl (by decide) (by decide),
   claim_C4.2.2.2 wAuth noFaults wDB [⟨1, 2⟩] "tok" (by decide)⟩

/-- C10: a `CreateOrder` request with two lines for the same book is
accepted, with both lines and the combined total persisted on the
order; but because the in-transaction stock re-read goes through the
repository's base connection (the committed snapshot), both lines
compute their new stock from the same pre-transaction value, and the
committed stock after the transaction is the pre-transaction stock
minus only the second line's quantity — the decrements do not
accumulate. -/
theorem claim_C10 (auth : String → Option User) (db : DB) (token : String)
    (user : User) (b : ℕ) (q₁ q₂ : ℤ) (bk : Book)
    (hauth : auth token = some user) (hb : getBook db b = some bk)
    (h1 : 0 < q₁) (h2 : 0 < q₂) (hs1 : q₁ ≤ bk.stock) (hs2 : q₂ ≤ bk.stock) :
    ∃ o, (createOrder auth noFaults db [⟨b, q₁⟩, ⟨b, q₂⟩] token).result = .ok o ∧
      o.items = [⟨db.nextOrderID, b, q₁, bk.price⟩, ⟨db.nextOrderID, b, q₂, bk.price⟩] ∧
      o.totalPrice = bk.price * (q₁ : ℚ) + (bk.price * (q₂ : ℚ) + 0) ∧
      getBook (createOrder auth noFaults db [⟨b, q₁⟩, ⟨b, q₂⟩] token).db b =
        some { bk with stock := bk.stock - q₂ } := by
  have hbuild : buildItems db [⟨b, q₁⟩, ⟨b, q₂⟩] =
      .ok ([⟨0, b, q₁, bk.price⟩, ⟨0, b, q₂, bk.price⟩],
           bk.price * (q₁ : ℚ) + (bk.price * (q₂ : ℚ) + 0)) := by
    simp [buildItems, hb, not_le.mpr h1, not_le.mpr h2, not_lt.mpr hs1, not_lt.mpr hs2]
  have hloopstep : ∀ (f : Faults) (tx : Tx), f.getBookTxFail b = false →
      f.updateStockFail b = false → tx.base = db →
      updateStocksLoop f [⟨b, q₁⟩, ⟨b, q₂⟩] tx =
        .ok (updateStockTx (updateStockTx tx b (bk.stock - q₁)) b (bk.stock - q₂)) := by
    intro f tx hf1 hf2 htx
    simp [updateStocksLoop, hf1, hf2, updateStockTx, htx, hb,
      not_lt.mpr hs1, not_lt.mpr hs2]
  rcases createOrder_main auth noFaults db [⟨b, q₁⟩, ⟨b, q₂⟩] token with ⟨e, herr, _⟩ |
    ⟨u, rows, total, tx₂, ha, hbuild2, hloop, hfind, hout⟩
  · exfalso
    rw [createOrder, hauth] at herr
    simp only [List.isEmpty_cons, hbuild] at herr
    rw [withTransaction] at herr
    simp only [createOrderTx, noFaults, Bind.bind, Except.bind, Functor.map, Except.map,
      pure, Except.pure, Bool.false_eq_true, if_false] at herr
    rw [hloopstep _ _ rfl rfl rfl] at herr
    simp [updateStockTx, writeBookStock, getOrderRow, List.find?] at herr
  · rw [hbuild] at hbuild2
    simp only [Except.ok.injEq, Prod.mk.injEq] at hbuild2
    obtain ⟨hrows, htotal⟩ := hbuild2
    subst hrows
    subst htotal
    rw [hloopstep _ _ rfl rfl rfl] at hloop
    simp only [Except.ok.injEq] at hloop
    subst hloop
    refine ⟨_, by rw [hout], by norm_num, by norm_num, ?_⟩
    rw [hout]
    show getBook (writeBookStock (writeBookStock _ b (bk.stock - q₁)) b (bk.stock - q₂)) b = _
    have g1 := getBook_writeBookStock_self
      { db with
        orders := ({ id := db.nextOrderID, userID := u.id,
                     totalPrice := bk.price * (q₁ : ℚ) + (bk.price * (q₂ : ℚ) + 0),
                     status := "pending", paymentURL := "",
                     items := [⟨db.nextOrderID, b, q₁, bk.price⟩,
                               ⟨db.nextOrderID, b, q₂, bk.price⟩] } : OrderRow)
          :: db.orders,
        nextOrderID := db.nextOrderID + 1 } b (bk.stock - q₁) bk hb
    exact getBook_writeBookStock_self _ b (bk.stock - q₂)
      { bk with stock := bk.stock - q₁ } g1

/-- C10 witness: two quantity-2 lines for book 1, initial stock 10:
both lines persist, the total counts both, yet the committed stock
drops only to 8. -/
theorem claim_C10_witness :
    ∃ o, (createOrder wAuth noFaults wDB [⟨1, 2⟩, ⟨1, 2⟩] "tok").result = .ok o ∧
      o.items = [⟨1, 1, 2, 5⟩, ⟨1, 1, 2, 5⟩] ∧
      o.totalPrice = 5 * (2 : ℚ) + (5 * (2 : ℚ) + 0) ∧
      getBook (createOrder wAuth noFaults wDB [⟨1, 2⟩, ⟨1, 2⟩] "tok").db 1 =
        some { title := "B", price := 5, stock := 8 } :=
  claim_C10 wAuth wDB "tok" ⟨7, "user"⟩ 1 2 2 ⟨"B", 5, 10⟩ (by decide) (by decide)
    (by decide) (by decide) (by decide) (by decide)

/-! ## ProcessPayment lemmas and claim C6 -/

/-- Master case split for `ProcessPayment`: it either fails with the
store unchanged, or the caller owns the pending order and both the
payment URL and the "processing" status are committed together. -/
theorem processPayment_main (auth : String → Option User) (f : Faults) (b : Breaker)
    (gateway : PayReq → Except String String) (db : DB) (orderID : ℕ)
    (token : String) (user : User) (order : OrderRow)
    (hauth : auth token = some user) (horder : getOrderRow db orderID = some order) :
    (∃ e, processPayment auth f b gateway db orderID token = (.error e, db)) ∨
    (∃ url, order.userID = user.id ∧ order.status = "pending" ∧
      processPayment auth f b gateway db orderID token =
        (.ok url,
         mapOrder (mapOrder db orderID (fun o => { o with paymentURL := url }))
           orderID (fun o => { o with status := "processing" }))) := by
  by_cases hown : order.userID ≠ user.id
  · exact Or.inl ⟨.accessDenied, by simp [processPayment, hauth, horder, hown]⟩
  · by_cases hst : order.status ≠ "pending"
    · exact Or.inl ⟨.notPending, by simp [processPayment, hauth, horder, hown, hst]⟩
    · rcases hcb : createPaymentCB b order order.items gateway with ⟨r, b', inv⟩
      cases r with
      | error e =>
        exact Or.inl ⟨e, by simp [processPayment, hauth, horder, hown, hst, hcb]⟩
      | ok url =>
        by_cases hp : f.payURLFail
        · exact Or.inl ⟨.repoErr "update payment url",
            by simp [processPayment, hauth, horder, hown, hst, hcb, withTransaction, hp,
              Bind.bind, Except.bind]⟩
        · by_cases hs : f.statusTxFail
          · exact Or.inl ⟨.repoErr "update status",
              by simp [processPayment, hauth, horder, hown, hst, hcb, withTransaction,
                hp, hs, Bind.bind, Except.bind, pure, Except.pure,
                updatePaymentURLTx, updateStatusTx]⟩
          · refine Or.inr ⟨url, not_ne_iff.mp hown, not_ne_iff.mp hst, ?_⟩
            simp [processPayment, hauth, horder, hown, hst, hcb, withTransaction,
              hp, hs, Bind.bind, Except.bind, pure, Except.pure,
              updatePaymentURLTx, updateStatusTx]

/-- C6: `ProcessPayment` succeeds only when the token resolves to the
order's owner and the order's status is exactly "pending"; a
non-owning caller gets the access-denied error and a non-pending order
the invalid-state error, in both cases with the store unchanged; every
failure leaves the store unchanged; on success the payment reference
and the "processing" status are persisted as one atomic update; and a
second `ProcessPayment` on the now-"processing" order fails with the
invalid-state error, changing nothing. -/
theorem claim_C6 (auth : String → Option User) (f : Faults) (b : Breaker)
    (gateway : PayReq → Except String String) (db : DB) (orderID : ℕ)
    (token : String) (user : User) (order : OrderRow)
    (hauth : auth token = some user) (horder : getOrderRow db orderID = some order) :
    (order.userID ≠ user.id →
      processPayment auth f b gateway db orderID token = (.error .accessDenied, db)) ∧
    (order.userID = user.id → order.status ≠ "pending" →
      processPayment auth f b gateway db orderID token = (.error .notPending, db)) ∧
    (∀ e, (processPayment auth f b gateway db orderID token).1 = .error e →
      (processPayment auth f b gateway db orderID token).2 = db) ∧
    (∀ url, (processPayment auth f b gateway db orderID token).1 = .ok url →
      order.userID = user.id ∧ order.status = "pending" ∧
      getOrderRow (processPayment auth f b gateway db orderID token).2 orderID =
        some { order with status := "processing", paymentURL := url }) ∧
    (∀ url, (processPayment auth f b gateway db orderID token).1 = .ok url →
      ∀ (f₂ : Faults) (b₂ : Breaker) (gw₂ : PayReq → Except String String)
        (token₂ : String) (user₂ : User), auth token₂ = some user₂ →
        user₂.id = order.userID →
        processPayment auth f₂ b₂ gw₂ (processPayment auth f b gateway db orderID token).2
          orderID token₂ =
          (.error .notPending,
           (processPayment auth f b gateway db orderID token).2)) := by
  have hurl : ∀ url,
      getOrderRow
        (mapOrder (mapOrder db orderID (fun o => { o with paymentURL := url }))
          orderID (fun o => { o with status := "processing" })) orderID =
      some { order with status := "processing", paymentURL := url } := by
    intro url
    rw [getOrderRow_mapOrder _ orderID (fun o => { o with status := "processing" })
          (fun o => rfl),
        getOrderRow_mapOrder _ orderID (fun o => { o with paymentURL := url })
          (fun o => rfl), horder]
    rfl
  refine ⟨?_, ?_, ?_, ?_, ?_⟩
  · intro hne
    simp [processPayment, hauth, horder, hne]
  · intro heq hne
    simp [processPayment, hauth, horder, heq, hne]
  · intro e h
    rcases processPayment_main auth f b gateway db orderID token user order hauth horder
      with ⟨e', hout⟩ | ⟨url, _, _, hout⟩
    · rw [hout]
    · rw [hout] at h
      exact absurd h (by simp)
  · intro url h
    rcases processPayment_main auth f b gateway db orderID token user order hauth horder
      with ⟨e', hout⟩ | ⟨url', hown, hst, hout⟩
    · rw [hout] at h
      exact absurd h (by simp)
    · rw [hout] at h ⊢
      simp only [Except.ok.injEq] at h
      subst h
      exact ⟨hown, hst, hurl url'⟩
  · intro url h f₂ b₂ gw₂ token₂ user₂ hauth₂ hid
    rcases processPayment_main auth f b gateway db orderID token user order hauth horder
      with ⟨e', hout⟩ | ⟨url', hown, hst, hout⟩
    · rw [hout] at h
      exact absurd h (by simp)
    · rw [hout]
      simp [processPayment, hauth₂, hurl url', hid]


/-- The fixture store after the C1 order: book 1 at stock 8, the
pending order persisted. -/
def wPayDB : DB := ⟨[(1, ⟨"B", 5, 8⟩)], [wOrder], 2⟩

/-- A gateway that accepts and returns the redirect reference "pay". -/
def wGw : PayReq → Except String String := fun _ => .ok "pay"

/-- A closed breaker with a fresh window. -/
def wCB : Breaker := ⟨.closed, ⟨0, 0, 0⟩⟩

/-- C6 witness: a successful payment initiation on the pending fixture
order persists the reference and the "processing" status together. -/
theorem claim_C6_witness :
    (processPayment wAuth noFaults wCB wGw wPayDB 1 "tok").1 = .ok "pay" ∧
    getOrderRow (processPayment wAuth noFaults wCB wGw wPayDB 1 "tok").2 1 =
      some { wOrder with status := "processing", paymentURL := "pay" } :=
  ⟨by decide,
   ((claim_C6 wAuth noFaults wCB wGw wPayDB 1 "tok" ⟨7, "user"⟩ wOrder (by decide)
      (by decide)).2.2.2.1 "pay" (by decide)).2.2⟩

/-- C9: `UpdateOrderStatus` rejects a caller whose token resolves to a
non-admin with the forbidden-kind error before any validation or write;
rejects any status outside the fixed five-element list with the
invalid-status error before writing; and for an admin and a recognized
status writes it whatever the order's current status is — the
recognized statuses being exactly "pending", "processing", "shipped",
"completed", "cancelled". -/
theorem claim_C9 (auth : String → Option User) (db : DB) (id : ℕ)
    (status token : String) (user : User) (hauth : auth token = some user) :
    (user.role ≠ "admin" →
      updateOrderStatus auth db id status token = (.error .adminRequired, db)) ∧
    (user.role = "admin" → status ∉ validStatuses →
      updateOrderStatus auth db id status token = (.error .invalidStatus, db)) ∧
    (user.role = "admin" → status ∈ validStatuses →
      ∀ order, getOrderRow db id = some order →
        updateOrderStatus auth db id status token =
          (.ok { order with status := status },
           mapOrder db id (fun o => { o with status := status }))) ∧
    (status ∈ validStatuses ↔
      status = "pending" ∨ status = "processing" ∨ status = "shipped" ∨
      status = "completed" ∨ status = "cancelled") := by
  refine ⟨?_, ?_, ?_, by simp [validStatuses]⟩
  · intro hrole
    simp [updateOrderStatus, hauth, hrole]
  · intro hrole hmem
    simp [updateOrderStatus, hauth, hrole, hmem]
  · intro hrole hmem order horder
    have hmap : getOrderRow (mapOrder db id (fun o => { o with status := status })) id =
        some { order with status := status } := by
      rw [getOrderRow_mapOrder _ id (fun o => { o with status := status })
            (fun o => rfl), horder]
      rfl
    simp [updateOrderStatus, hauth, hrole, hmem, hmap]

/-- C9 witness: a non-admin caller is rejected as forbidden, a bogus
status as invalid, and an admin may jump the fixture's pending order
straight to "shipped". -/
theorem claim_C9_witness :
    updateOrderStatus wAuth wPayDB 1 "shipped" "tok" = (.error .adminRequired, wPayDB) ∧
    updateOrderStatus wAuth wPayDB 1 "bogus" "adm" = (.error .invalidStatus, wPayDB) ∧
    updateOrderStatus wAuth wPayDB 1 "shipped" "adm" =
      (.ok { wOrder with status := "shipped" },
       mapOrder wPayDB 1 (fun o => { o with status := "shipped" })) :=
  ⟨(claim_C9 wAuth wPayDB 1 "shipped" "tok" ⟨7, "user"⟩ (by decide)).1 (by decide),
   (claim_C9 wAuth wPayDB 1 "bogus" "adm" ⟨9, "admin"⟩ (by decide)).2.1 rfl (by decide),
   (claim_C9 wAuth wPayDB 1 "shipped" "adm" ⟨9, "admin"⟩ (by decide)).2.2.1 rfl
     (by decide) wOrder (by decide)⟩

/-! ## Payment-gross lemmas and claim C7 -/

/-- `int32wrap` is the identity on the `int32` range. -/
theorem int32wrap_eq_self (n : ℤ) (h1 : -2^31 ≤ n) (h2 : n < 2^31) :
    int32wrap n = n := by
  unfold int32wrap
  omega

theorem int64wrap_eq_self (n : ℤ) (h1 : -2^63 ≤ n) (h2 : n < 2^63) :
    int64wrap n = n := by
  unfold int64wrap
  omega

theorem grossLoop_eq (items : List OrderItemRow) :
    ∀ acc : ℤ, 0 ≤ acc →
    (∀ r ∈ items, 0 < r.quantity ∧ r.quantity < 2^31 ∧ 0 ≤ goTrunc r.price) →
    acc + (items.map (fun r => goTrunc r.price * r.quantity)).sum < 2^63 →
    grossLoop items acc = acc + (items.map (fun r => goTrunc r.price * r.quantity)).sum := by
  induction items with
  | nil => intro acc _ _ _; simp [grossLoop]
  | cons r rest ih =>
    intro acc hacc hb hs
    obtain ⟨hq, hq31, ht⟩ := hb r (List.mem_cons_self r rest)
    have hrest : ∀ x ∈ rest, 0 < x.quantity ∧ x.quantity < 2^31 ∧ 0 ≤ goTrunc x.price :=
      fun x hx => hb x (List.mem_cons_of_mem r hx)
    have hterm : 0 ≤ goTrunc r.price * r.quantity :=
      mul_nonneg ht (le_of_lt hq)
    have hsum : 0 ≤ (rest.map (fun x => goTrunc x.price * x.quantity)).sum :=
      List.sum_nonneg (by
        intro y hy
        simp only [List.mem_map] at hy
        obtain ⟨x, hx, rfl⟩ := hy
        obtain ⟨hq', _, ht'⟩ := hrest x hx
        exact mul_nonneg ht' (le_of_lt hq'))
    rw [List.map_cons, List.sum_cons] at hs
    have h32 : int32wrap r.quantity = r.quantity :=
      int32wrap_eq_self r.quantity (by omega) hq31
    have h64t : int64wrap (goTrunc r.price * r.quantity) = goTrunc r.price * r.quantity :=
      int64wrap_eq_self _ (by omega) (by omega)
    have h64a : int64wrap (acc + goTrunc r.price * r.quantity) =
        acc + goTrunc r.price * r.quantity :=
      int64wrap_eq_self _ (by omega) (by omega)
    show grossLoop rest _ = _
    rw [h32, h64t, h64a,
      ih (acc + goTrunc r.price * r.quantity) (by omega) hrest (by omega)]
    rw [List.map_cons, List.sum_cons]
    ring

/-- The claim's scenario: a line of quantity 2 at a unit price of
$25.99 (subtotal $51.98). -/
def c7Items : List OrderItemRow := [⟨1, 1, 2, 2599 / 100⟩]

/-- C7 counterexample: the order-line subtotals sum to $51.98, but the
gross amount `CreatePayment` sends to the gateway is 50 — each line
price is converted to `int64` (truncating $25.99 to 25) before the
multiplication — so the requested gross equals neither the subtotal sum
nor $51.98. -/
theorem claim_C7_counterexample :
    ((c7Items.map (fun r => r.price * (r.quantity : ℚ))).sum = 5198 / 100) ∧
    createPaymentGross c7Items = 50 ∧
    ¬ ((createPaymentGross c7Items : ℚ) = 5198 / 100) := by
  have h : createPaymentGross c7Items = 50 := by
    norm_num [createPaymentGross, grossLoop, goTrunc, int32wrap, int64wrap, c7Items]
  refine ⟨by norm_num [c7Items], h, ?_⟩
  rw [h]
  norm_num

/-- C7 (amended): the gateway gross amount is computed from the order's
line rows alone — the stored order total field is never consulted — and
equals the sum over the lines of the `int64`-truncated unit price times
the quantity (stated for lines whose quantities and truncated prices
are in machine range with a total below 2^63). -/
theorem claim_C7 (order : OrderRow) (items : List OrderItemRow)
    (hb : ∀ r ∈ items, 0 < r.quantity ∧ r.quantity < 2^31 ∧ 0 ≤ goTrunc r.price)
    (hs : (items.map (fun r => goTrunc r.price * r.quantity)).sum < 2^63) :
    (createPaymentRequest order items).grossAmt =
      (items.map (fun r => goTrunc r.price * r.quantity)).sum ∧
    ∀ t, (createPaymentRequest { order with totalPrice := t } items).grossAmt =
      (createPaymentRequest order items).grossAmt := by
  constructor
  · show createPaymentGross items = _
    unfold createPaymentGross
    simpa using grossLoop_eq items 0 le_rfl hb (by simpa using hs)
  · intro t
    rfl

/-- C7 witness: on the $25.99 scenario the amended formula applies and
the computed gross is 50. -/
theorem claim_C7_witness :
    (createPaymentRequest wOrder c7Items).grossAmt =
      (c7Items.map (fun r => goTrunc r.price * r.quantity)).sum ∧
    (c7Items.map (fun r => goTrunc r.price * r.quantity)).sum = 50 :=
  ⟨(claim_C7 wOrder c7Items
      (by norm_num [c7Items, goTrunc])
      (by norm_num [c7Items, goTrunc])).1,
   by norm_num [c7Items, goTrunc]⟩

/-! ## Claim C8: the payment circuit breaker -/

/-- C8: the repository's `ReadyToTrip` predicate holds exactly when at
least 5 calls were observed in the window and the failure ratio is at
least 60%; recording a failure in the closed state opens the gate
exactly when the updated counters satisfy it, while a success never
does; while the gate is open every payment creation fails immediately
with the dedicated "temporarily unavailable" error without invoking the
remote gateway; and a genuine gateway failure surfaces as a distinct
error value. -/
theorem claim_C8 :
    (∀ c : CBCounts, readyToTrip c = true ↔
      (5 ≤ c.requests ∧ 3 * c.requests ≤ 5 * c.totalFailures)) ∧
    (∀ (c : CBCounts) (msg : String),
      (cbExecute ⟨.closed, c⟩ (.error msg : Except String String)).2.1.state = .openState ↔
        readyToTrip ⟨c.requests + 1, c.totalSuccesses, c.totalFailures + 1⟩ = true) ∧
    (∀ (c : CBCounts) (url : String),
      (cbExecute ⟨.closed, c⟩ (.ok url : Except String String)).2.1.state = .closed) ∧
    (∀ (b : Breaker) (order : OrderRow) (items : List OrderItemRow)
        (gw : PayReq → Except String String), b.state = .openState →
      createPaymentCB b order items gw = (.error .gatewayUnavailable, b, false)) ∧
    (∀ (b : Breaker) (order : OrderRow) (items : List OrderItemRow)
        (gw : PayReq → Except String String) (msg : String), b.state = .closed →
      gw (createPaymentRequest order items) = .error msg →
      (createPaymentCB b order items gw).1 = .error (.gatewayErr msg) ∧
      OrderErr.gatewayErr msg ≠ OrderErr.gatewayUnavailable) := by
  refine ⟨?_, ?_, ?_, ?_, ?_⟩
  · intro c
    unfold readyToTrip
    rw [Bool.and_eq_true, decide_eq_true_iff, decide_eq_true_iff]
    constructor
    · rintro ⟨h5, hdiv⟩
      refine ⟨h5, ?_⟩
      have hr : (0 : ℚ) < (c.requests : ℚ) := by
        exact_mod_cast (by omega : 0 < c.requests)
      rw [div_le_div_iff₀ (by norm_num) hr] at hdiv
      have : 6 * c.requests ≤ c.totalFailures * 10 := by exact_mod_cast hdiv
      omega
    · rintro ⟨h5, hle⟩
      refine ⟨h5, ?_⟩
      have hr : (0 : ℚ) < (c.requests : ℚ) := by
        exact_mod_cast (by omega : 0 < c.requests)
      rw [div_le_div_iff₀ (by norm_num) hr]
      exact_mod_cast (by omega : 6 * c.requests ≤ c.totalFailures * 10)
  · intro c msg
    by_cases hrt : readyToTrip ⟨c.requests + 1, c.totalSuccesses, c.totalFailures + 1⟩ = true
    · simp [cbExecute, hrt]
    · simp [cbExecute, hrt]
  · intro c url
    simp [cbExecute]
  · intro b order items gw hb
    simp [createPaymentCB, cbExecute, hb]
  · intro b order items gw msg hb hgw
    refine ⟨?_, by simp⟩
    by_cases hrt : readyToTrip
        ⟨b.counts.requests + 1, b.counts.totalSuccesses, b.counts.totalFailures + 1⟩ = true
    · simp [createPaymentCB, cbExecute, hb, hgw, hrt]
    · simp [createPaymentCB, cbExecute, hb, hgw, hrt]

/-- C8 witness: the trip boundary at 3 failures out of 5 requests, and
an open breaker short-circuiting a concrete payment call. -/
theorem claim_C8_witness :
    readyToTrip ⟨5, 2, 3⟩ = true ∧
    createPaymentCB ⟨.openState, ⟨0, 0, 0⟩⟩ wOrder c7Items wGw =
      (.error .gatewayUnavailable, ⟨.openState, ⟨0, 0, 0⟩⟩, false) :=
  ⟨(claim_C8.1 ⟨5, 2, 3⟩).mpr (by decide),
   claim_C8.2.2.2.1 ⟨.openState, ⟨0, 0, 0⟩⟩ wOrder c7Items wGw rfl⟩

/-! ## Claim C5: two concurrent CreateOrder calls can both succeed -/

/-- C5 is refuted: with committed stock 1 and two concurrent
quantity-1 `CreateOrder` calls for the same book, the interleaving
`overSellSchedule` — allowed by the code, because `s.stockMutex` is
released before the transaction commits and the in-mutex re-read goes
through the base connection, which sees only committed data — drives
both calls to successful completion (`pc = 7`): two units are sold from
a stock of one.  The final committed stock is 0, not negative. -/
theorem claim_C5_bothSucceed :
    (twoCallsRun (twoCallsInit 1 1 1) overSellSchedule).map
      (fun s => (s.threadF.pc, s.threadT.pc, s.committed)) = some (7, 7, 0) := by
  decide

end BookStore
